import Mathlib

/-!
Shallow embedding of the git abstraction layer of git-interactive-rebase-tool
(`src/git/src/repository.rs`): opening a repository, loading its
configuration, and loading the diff introduced by a commit.

The source file under verification contains the `Repository` wrapper only.
The backend (`git2`) and the `CommitDiffLoader` are external collaborators:
the backend is modelled as explicit data (`GitBackend`, `World`), and the
loader is modelled from the specification (its definitions carry a
`Modelled from the spec:` doc comment).

Machine-level content is abstracted: an object id is a `Nat`, a blob's
content is abstracted to its content hash (a `Nat`), a tree is an ordered
list of (path, content-hash) entries.
-/

/-- A git object id (abstracted). -/
abbrev Oid := Nat

/-- A tree: an ordered list of (file path, content hash) entries. -/
abbrev GitTree := List (String × Nat)

/-- A commit object: its recorded parent ids, in order, and its tree. -/
structure Commit where
  parents : List Oid
  tree : GitTree
deriving DecidableEq, Repr

/-- The merged git configuration (opaque at this boundary; `git2::Config`). -/
structure Config where
  entries : List (String × String)
deriving DecidableEq, Repr

/-- `CommitDiffLoaderOptions` (the spec's DiffOptions): rename detection,
whitespace policy and context-line count. Content is abstracted to a hash in
this embedding, so only rename detection influences the modelled diff. -/
structure CommitDiffLoaderOptions where
  detect_renames : Bool := false
  ignore_whitespace : Bool := false
  context_lines : Nat := 3
deriving DecidableEq, Repr

/-- `CommitDiffLoaderOptions::new()`. -/
def CommitDiffLoaderOptions.new : CommitDiffLoaderOptions := {}

/-- The change kind of one per-file change record. -/
inductive ChangeKind where
  | added
  | deleted
  | modified
  | renamed
  | copied
deriving DecidableEq, Repr

/-- One per-file change record: old path, new path, change kind. The content
delta is abstracted away (content is a hash in this embedding). -/
structure FileChange where
  old_path : Option String
  new_path : Option String
  kind : ChangeKind
deriving DecidableEq, Repr

/-- A `CommitDiff`: the change set between one commit and one specific parent
(`parent = none` for the diff of a root commit against the empty tree). -/
structure CommitDiff where
  commit : Oid
  parent : Option Oid
  changes : List FileChange
deriving DecidableEq, Repr

/-- The error taxonomy of the diff pipeline. -/
inductive DiffError where
  | notFound (msg : String)
  | objectNotFound (oid : Oid)
  | treeComputationFailed (oid : Oid)
deriving DecidableEq, Repr

/-- Association-list lookup (first match), the model of every keyed backend
query. -/
def lookupAssoc {κ α : Type} [DecidableEq κ] (l : List (κ × α)) (k : κ) : Option α :=
  (l.find? (fun e => decide (e.1 = k))).map (fun e => e.2)

/-- The state of an opened `git2::Repository` backend: its object store
(commits by oid), its revision-resolution table, and the outcome of a
configuration load. All queries against it are read-only. -/
structure GitBackend where
  commits : List (Oid × Commit)
  revs : List (String × Oid)
  configResult : Except String Config

/-- Commit lookup in the backend object store. -/
def lookupCommit (b : GitBackend) (oid : Oid) : Option Commit :=
  lookupAssoc b.commits oid

/-- `git2::Repository::revparse_single(hash).id()`: resolve a revision string
to an object id, failing with git2's NotFound-class error when the revision
does not resolve. -/
def GitBackend.revparse_single (b : GitBackend) (hash : String) : Except DiffError Oid :=
  match lookupAssoc b.revs hash with
  | some oid => Except.ok oid
  | none => Except.error (DiffError.notFound ("revspec \x27" ++ hash ++ "\x27 not found"))

/-- Path lookup in a tree. -/
def lookupPath (t : GitTree) (p : String) : Option Nat :=
  lookupAssoc t p

/-- Rename pairing: match each deleted entry with an added entry of identical
content hash (the similarity heuristic is backend-defined; identity of the
content hash is its abstraction here). Returns (pairs, unpaired deleted,
unpaired added). -/
def pairByHash : List (String × Nat) → List (String × Nat) →
    List ((String × Nat) × (String × Nat)) × List (String × Nat) × List (String × Nat)
  | [], adds => ([], [], adds)
  | d :: ds, adds =>
    match adds.find? (fun a => decide (a.2 = d.2)) with
    | some a =>
      let r := pairByHash ds (adds.erase a)
      ((d, a) :: r.1, r.2.1, r.2.2)
    | none =>
      let r := pairByHash ds adds
      (r.1, d :: r.2.1, r.2.2)

/-- Modelled from the spec: the tree-to-tree diff the backend diff engine
computes (`CommitDiffLoader` and the git2 diff engine are not under src/).
Classifies each file pair by presence/absence/content-hash in old vs new
tree; rename detection is applied only when enabled in the options. -/
def treeDiff (opts : CommitDiffLoaderOptions) (old new : GitTree) : List FileChange :=
  let deleted := old.filter (fun e => (lookupPath new e.1).isNone)
  let added := new.filter (fun e => (lookupPath old e.1).isNone)
  let modified := new.filterMap (fun e =>
    match lookupPath old e.1 with
    | some h => if h = e.2 then none else some e.1
    | none => none)
  let r := if opts.detect_renames then pairByHash deleted added else ([], deleted, added)
  r.2.1.map (fun e => { old_path := some e.1, new_path := none, kind := ChangeKind.deleted })
    ++ r.2.2.map (fun e => { old_path := none, new_path := some e.1, kind := ChangeKind.added })
    ++ r.1.map (fun pr => { old_path := some pr.1.1, new_path := some pr.2.1, kind := ChangeKind.renamed })
    ++ modified.map (fun p => { old_path := some p, new_path := some p, kind := ChangeKind.modified })

/-- Modelled from the spec: the per-parent loop of
`CommitDiffLoader::load_from_hash` (not under src/) — for each parent, in
recorded order, resolve the parent commit and diff its tree against the
commit's tree; fail atomically if a parent does not resolve. -/
def loadParentDiffs (b : GitBackend) (opts : CommitDiffLoaderOptions) (oid : Oid)
    (tree : GitTree) : List Oid → Except DiffError (List CommitDiff)
  | [] => Except.ok []
  | p :: ps =>
    match lookupCommit b p with
    | none => Except.error (DiffError.objectNotFound p)
    | some pc =>
      match loadParentDiffs b opts oid tree ps with
      | Except.error e => Except.error e
      | Except.ok rest =>
        Except.ok ({ commit := oid, parent := some p, changes := treeDiff opts pc.tree tree } :: rest)

/-- Modelled from the spec: `CommitDiffLoader::load_from_hash` (not under
src/) — resolve the commit, enumerate its parents in recorded order; zero
parents: one diff against the empty tree; otherwise one diff per parent, in
order. -/
def load_from_hash (b : GitBackend) (opts : CommitDiffLoaderOptions) (oid : Oid) :
    Except DiffError (List CommitDiff) :=
  match lookupCommit b oid with
  | none => Except.error (DiffError.objectNotFound oid)
  | some c =>
    match c.parents with
    | [] => Except.ok [{ commit := oid, parent := none, changes := treeDiff opts [] c.tree }]
    | p :: ps => loadParentDiffs b opts oid c.tree (p :: ps)

/-- The outcome of running a fallible Rust computation: it may panic, return
an error, or return a value. -/
inductive RunResult (ε α : Type) where
  | panicked
  | error (e : ε)
  | ok (a : α)
deriving DecidableEq, Repr

/-- `Vec::remove(0)`: returns the first element, discarding the rest;
panics on an empty vector. -/
def vecRemoveFirst {ε α : Type} : List α → RunResult ε α
  | [] => RunResult.panicked
  | a :: _ => RunResult.ok a

/-- The filesystem/environment the open operations run against: which paths
hold repositories, the `$GIT_DIR` override, and the outcome of the upward
search from the current directory when `$GIT_DIR` is unset. -/
structure World where
  reposAt : List (String × GitBackend)
  gitDir : Option String
  discovered : Except String GitBackend

/-- `git2::Repository::open(path)` (external): succeeds when a repository
exists at the path; otherwise fails with git2's message naming the path
(message format as asserted by the repository's own tests). -/
def git2_open (w : World) (path : String) : Except String GitBackend :=
  match lookupAssoc w.reposAt path with
  | some b => Except.ok b
  | none =>
    Except.error ("failed to resolve path \x27" ++ path ++ "\x27: No such file or directory")

/-- `git2::Repository::open_from_env()` (external): uses `$GIT_DIR` when set,
otherwise the result of the upward search. -/
def git2_open_from_env (w : World) : Except String GitBackend :=
  match w.gitDir with
  | some p => git2_open w p
  | none => w.discovered

/-- The `Repository` wrapper from `src/git/src/repository.rs`. -/
structure Repository where
  repository : GitBackend

/-- `Repository::open_from_env`: the git2 error message is wrapped with the
context string "Could not open repository from environment" (anyhow renders
context as "context: message"). -/
def Repository.open_from_env (w : World) : Except String Repository :=
  match git2_open_from_env w with
  | Except.ok b => Except.ok { repository := b }
  | Except.error m => Except.error ("Could not open repository from environment: " ++ m)

/-- `Repository::open_from_path`: the git2 error message is wrapped with the
context string "Could not open repository from path". -/
def Repository.open_from_path (w : World) (path : String) : Except String Repository :=
  match git2_open w path with
  | Except.ok b => Except.ok { repository := b }
  | Except.error m => Except.error ("Could not open repository from path: " ++ m)

/-- `Repository::load_config`: `self.repository.config().map_err(|e|
anyhow!(String::from(e.message())))` — the backend message is propagated
verbatim, with no added context. -/
def Repository.load_config (self : Repository) : Except String Config :=
  match self.repository.configResult with
  | Except.ok c => Except.ok c
  | Except.error m => Except.error m

/-- `Repository::load_commit_diff` with the loader abstracted: resolve the
hash (`?` propagates the error unchanged), call the loader (its error is
reformatted by `anyhow!` but carries no added context), then `.remove(0)` —
which panics on an empty vector and otherwise discards all but the first
diff. -/
def Repository.load_commit_diff_with (self : Repository)
    (loader : Oid → Except DiffError (List CommitDiff)) (hash : String) :
    RunResult DiffError CommitDiff :=
  match self.repository.revparse_single hash with
  | Except.error e => RunResult.error e
  | Except.ok oid =>
    match loader oid with
    | Except.error e => RunResult.error e
    | Except.ok diffs => vecRemoveFirst diffs

/-- `Repository::load_commit_diff`, with the loader instantiated to
`CommitDiffLoader::load_from_hash`. -/
def Repository.load_commit_diff (self : Repository) (hash : String)
    (config : CommitDiffLoaderOptions) : RunResult DiffError CommitDiff :=
  self.load_commit_diff_with (load_from_hash self.repository config) hash

/-- Fixture: the literal scenario of the spec — root commit C1 adding "a.txt" and
"b.txt", commit C2 on top of it, and merge commit C3 with parents [C2, C1]. -/
def tree1 : GitTree := [("a.txt", 1), ("b.txt", 2)]
def tree3 : GitTree := [("a.txt", 10), ("b.txt", 2), ("c.txt", 3)]
def c1x : Commit := { parents := [], tree := tree1 }
def c2x : Commit := { parents := [1], tree := tree3 }
def c3x : Commit := { parents := [2, 1], tree := tree3 }
def mergeBackend : GitBackend :=
  { commits := [(1, c1x), (2, c2x), (3, c3x)]
  , revs := [("c1", 1), ("c2", 2), ("c3", 3)]
  , configResult := Except.ok { entries := [] } }
def mergeRepo : Repository := { repository := mergeBackend }
def altBackend : GitBackend :=
  { commits := [(1, c1x), (2, c2x), (3, c3x)]
  , revs := [("c1", 1), ("c2", 2), ("c3", 3)]
  , configResult := Except.error "unreadable" }
def badParentBackend : GitBackend :=
  { commits := [(5, { parents := [9], tree := [] })]
  , revs := [("c5", 5)]
  , configResult := Except.ok { entries := [] } }
def emptyBackend : GitBackend :=
  { commits := [], revs := [], configResult := Except.ok { entries := [] } }
def cfgFailBackend : GitBackend :=
  { commits := [], revs := [], configResult := Except.error "bad config line 3" }
def cfgFailRepo : Repository := { repository := cfgFailBackend }
def wTest : World :=
  { reposAt := [("/repo", emptyBackend)]
  , gitDir := some "/missing"
  , discovered := Except.error "could not find repository" }
def emptyLoader : Oid → Except DiffError (List CommitDiff) := fun _ => Except.ok []

def addedC : FileChange := { old_path := none, new_path := some "c.txt", kind := ChangeKind.added }

def modifiedA : FileChange := { old_path := some "a.txt", new_path := some "a.txt", kind := ChangeKind.modified }

def mergeDiffList : List CommitDiff :=
  [{ commit := 3, parent := some 2, changes := [] },
   { commit := 3, parent := some 1, changes := [addedC, modifiedA] }]

def GitBackend.revparse_singleS (b : GitBackend) (hash : String) :
    (Except DiffError Oid) × GitBackend := (b.revparse_single hash, b)

def GitBackend.configS (b : GitBackend) : (Except String Config) × GitBackend :=
  (b.configResult, b)

def load_from_hashS (b : GitBackend) (opts : CommitDiffLoaderOptions) (oid : Oid) :
    (Except DiffError (List CommitDiff)) × GitBackend := (load_from_hash b opts oid, b)

def Repository.load_configS (self : Repository) : (Except String Config) × Repository :=
  let r := self.repository.configS
  (match r.1 with
   | Except.ok c => Except.ok c
   | Except.error m => Except.error m,
   { repository := r.2 })

def Repository.load_commit_diffS (self : Repository) (hash : String)
    (opts : CommitDiffLoaderOptions) : RunResult DiffError CommitDiff × Repository :=
  let r1 := self.repository.revparse_singleS hash
  match r1.1 with
  | Except.error e => (RunResult.error e, { repository := r1.2 })
  | Except.ok oid =>
    let r2 := load_from_hashS r1.2 opts oid
    match r2.1 with
    | Except.error e => (RunResult.error e, { repository := r2.2 })
    | Except.ok diffs => (vecRemoveFirst diffs, { repository := r2.2 })

theorem treeDiff_empty_old (opts : CommitDiffLoaderOptions) (t : GitTree) :
    treeDiff opts [] t
      = t.map (fun e => ({ old_path := none, new_path := some e.1, kind := ChangeKind.added } : FileChange)) := by
  have hadd : (t.filter fun e => (lookupPath [] e.1).isNone) = t := by
    induction t with
    | nil => rfl
    | cons a t ih => simp [List.filter_cons, lookupPath, lookupAssoc, ih]
  have hmod : (t.filterMap fun e =>
      match lookupPath [] e.1 with
      | some h => if h = e.2 then none else some e.1
      | none => none) = [] := by
    induction t with
    | nil => rfl
    | cons a t ih => simp [List.filterMap_cons, lookupPath, lookupAssoc, ih]
  cases hdr : opts.detect_renames <;>
    simp [treeDiff, hdr, hadd, hmod, pairByHash]

theorem loadParentDiffs_ok_spec (b : GitBackend) (opts : CommitDiffLoaderOptions) (oid : Oid)
    (tree : GitTree) (ps : List Oid) (l : List CommitDiff)
    (h : loadParentDiffs b opts oid tree ps = Except.ok l) :
    l.length = ps.length ∧ ∀ i (h1 : i < ps.length) (h2 : i < l.length),
      (l.get ⟨i, h2⟩).parent = some (ps.get ⟨i, h1⟩) := by
  induction ps generalizing l with
  | nil =>
    simp only [loadParentDiffs] at h
    cases h
    exact ⟨rfl, fun i h1 h2 => absurd h1 (Nat.not_lt_zero i)⟩
  | cons p ps ih =>
    simp only [loadParentDiffs] at h
    cases hc : lookupCommit b p with
    | none => rw [hc] at h; cases h
    | some pc =>
      rw [hc] at h
      cases hr : loadParentDiffs b opts oid tree ps with
      | error e => rw [hr] at h; cases h
      | ok rest =>
        rw [hr] at h
        cases h
        obtain ⟨hlen, hord⟩ := ih rest hr
        refine ⟨by simp [hlen], ?_⟩
        intro i h1 h2
        cases i with
        | zero => rfl
        | succ j =>
          have hj1 : j < ps.length := by simpa using h1
          have hj2 : j < rest.length := by simpa using h2
          exact hord j hj1 hj2

theorem loadParentDiffs_missing (b : GitBackend) (opts : CommitDiffLoaderOptions) (oid : Oid)
    (tree : GitTree) (ps : List Oid) (p : Oid)
    (hp : p ∈ ps) (hmiss : lookupCommit b p = none) :
    ∃ e, loadParentDiffs b opts oid tree ps = Except.error e := by
  induction ps with
  | nil => cases hp
  | cons q qs ih =>
    cases hq : lookupCommit b q with
    | none => exact ⟨DiffError.objectNotFound q, by simp [loadParentDiffs, hq]⟩
    | some pc =>
      rcases List.mem_cons.mp hp with rfl | hmem
      · rw [hq] at hmiss; exact Option.noConfusion hmiss
      · obtain ⟨e, he⟩ := ih hmem
        exact ⟨e, by simp [loadParentDiffs, hq, he]⟩

theorem load_from_hash_ok_ne_nil (b : GitBackend) (opts : CommitDiffLoaderOptions) (oid : Oid)
    (l : List CommitDiff) (h : load_from_hash b opts oid = Except.ok l) : l ≠ [] := by
  unfold load_from_hash at h
  cases hc : lookupCommit b oid with
  | none => rw [hc] at h; cases h
  | some c =>
    rw [hc] at h
    obtain ⟨ps0, tr⟩ := c
    cases ps0 with
    | nil => cases h; simp
    | cons p ps =>
      have h2 : loadParentDiffs b opts oid tr (p :: ps) = Except.ok l := h
      have hlen := (loadParentDiffs_ok_spec b opts oid tr (p :: ps) l h2).1
      intro hnil
      subst hnil
      simp at hlen

theorem loadParentDiffs_congr (b1 b2 : GitBackend) (opts : CommitDiffLoaderOptions) (oid : Oid)
    (tree : GitTree) (hcom : ∀ o, lookupCommit b1 o = lookupCommit b2 o) (ps : List Oid) :
    loadParentDiffs b1 opts oid tree ps = loadParentDiffs b2 opts oid tree ps := by
  induction ps with
  | nil => rfl
  | cons p ps ih =>
    simp only [loadParentDiffs]
    rw [hcom p, ih]

theorem load_from_hash_congr (b1 b2 : GitBackend) (opts : CommitDiffLoaderOptions) (oid : Oid)
    (hcom : ∀ o, lookupCommit b1 o = lookupCommit b2 o) :
    load_from_hash b1 opts oid = load_from_hash b2 opts oid := by
  unfold load_from_hash
  rw [hcom oid]
  cases lookupCommit b2 oid with
  | none => rfl
  | some c =>
    obtain ⟨ps, tr⟩ := c
    cases ps with
    | nil => rfl
    | cons p ps => exact loadParentDiffs_congr b1 b2 opts oid tr hcom (p :: ps)

/-- Claim C1: for every commit whose hash resolves, `Repository.load_commit_diff`
returns exactly the first element of the ordered sequence produced by
`CommitDiffLoader.load_from_hash`; all diffs except the first (first-parent)
diff are discarded. -/
theorem load_commit_diff_takes_first (r : Repository) (hash : String)
    (opts : CommitDiffLoaderOptions) (oid : Oid) (d : CommitDiff) (rest : List CommitDiff)
    (hrev : r.repository.revparse_single hash = Except.ok oid)
    (hload : load_from_hash r.repository opts oid = Except.ok (d :: rest)) :
    r.load_commit_diff hash opts = RunResult.ok d := by
  unfold Repository.load_commit_diff Repository.load_commit_diff_with
  rw [hrev]
  show (match load_from_hash r.repository opts oid with
        | Except.error e => RunResult.error e
        | Except.ok diffs => vecRemoveFirst diffs) = RunResult.ok d
  rw [hload]
  rfl

/-- Witness for C1 on a merge commit with two parents: the first-parent diff
is returned and the second diff is discarded. -/
theorem load_commit_diff_takes_first_witness :
    mergeRepo.load_commit_diff "c3" CommitDiffLoaderOptions.new
      = RunResult.ok { commit := 3, parent := some 2, changes := [] } :=
  load_commit_diff_takes_first mergeRepo "c3" CommitDiffLoaderOptions.new 3
    ⟨3, some 2, []⟩
    [⟨3, some 1, [⟨none, some "c.txt", ChangeKind.added⟩,
                  ⟨some "a.txt", some "a.txt", ChangeKind.modified⟩]⟩]
    rfl rfl

/-- Claim C2: on success, the sequence returned by `load_from_hash` has length
equal to the number of parents of the commit when positive and exactly 1 when
the commit has zero parents, and the per-parent diffs appear in the recorded
parent order of the commit. -/
theorem load_from_hash_count_and_order (b : GitBackend) (opts : CommitDiffLoaderOptions)
    (oid : Oid) (c : Commit) (l : List CommitDiff)
    (hc : lookupCommit b oid = some c) (hl : load_from_hash b opts oid = Except.ok l) :
    l.length = (if c.parents.length = 0 then 1 else c.parents.length) ∧
    ∀ i (h1 : i < c.parents.length) (h2 : i < l.length),
      (l.get ⟨i, h2⟩).parent = some (c.parents.get ⟨i, h1⟩) := by
  unfold load_from_hash at hl
  rw [hc] at hl
  obtain ⟨ps0, tr⟩ := c
  cases ps0 with
  | nil =>
    cases hl
    exact ⟨rfl, fun i h1 h2 => absurd h1 (Nat.not_lt_zero i)⟩
  | cons p ps =>
    have h2 : loadParentDiffs b opts oid tr (p :: ps) = Except.ok l := hl
    obtain ⟨hlen, hord⟩ := loadParentDiffs_ok_spec b opts oid tr (p :: ps) l h2
    exact ⟨by simp [hlen], hord⟩

/-- Witness for C2 at the two-parent merge commit of the fixture backend. -/
theorem load_from_hash_count_and_order_witness :
    mergeDiffList.length = (if c3x.parents.length = 0 then 1 else c3x.parents.length) :=
  (load_from_hash_count_and_order mergeBackend CommitDiffLoaderOptions.new 3 c3x
    mergeDiffList rfl rfl).1

/-- Claim C3: for a root commit (zero parents), `load_from_hash` returns
exactly one CommitDiff with an absent parent id whose change set lists every
file of the commit tree, each classified as added. -/
theorem load_from_hash_root_commit (b : GitBackend) (opts : CommitDiffLoaderOptions)
    (oid : Oid) (c : Commit) (hc : lookupCommit b oid = some c) (hroot : c.parents = []) :
    load_from_hash b opts oid = Except.ok
      [{ commit := oid, parent := none,
         changes := c.tree.map (fun e =>
           ({ old_path := none, new_path := some e.1, kind := ChangeKind.added } : FileChange)) }] := by
  unfold load_from_hash
  rw [hc]
  obtain ⟨ps0, tr⟩ := c
  have hps : ps0 = [] := hroot
  subst hps
  exact congrArg (fun ch => (Except.ok [CommitDiff.mk oid none ch] :
    Except DiffError (List CommitDiff))) (treeDiff_empty_old opts tr)

/-- Witness for C3 at the root commit of the fixture backend. -/
theorem load_from_hash_root_commit_witness :
    load_from_hash mergeBackend CommitDiffLoaderOptions.new 1 = Except.ok
      [{ commit := 1, parent := none,
         changes := c1x.tree.map (fun e =>
           ({ old_path := none, new_path := some e.1, kind := ChangeKind.added } : FileChange)) }] :=
  load_from_hash_root_commit mergeBackend CommitDiffLoaderOptions.new 1 c1x rfl rfl

/-- Counterexample for C4 as stated: `Repository.load_config` propagates the
backend error message verbatim — no nonempty context string is prepended
(anyhow renders a context as "context: message"), so not every failing
operation is wrapped with a context identifying the operation. -/
theorem load_config_context_counterexample :
    cfgFailRepo.load_config = Except.error "bad config line 3" ∧
    ¬ ∃ ctx : String, ctx ≠ "" ∧ "bad config line 3" = ctx ++ ": " ++ "bad config line 3" := by
  refine ⟨rfl, ?_⟩
  rintro ⟨ctx, hne, h⟩
  have hlen := congrArg String.length h
  have e1 : ("bad config line 3" : String).length = 17 := rfl
  have e2 : (": " : String).length = 2 := rfl
  rw [String.length_append, String.length_append, e1, e2] at hlen
  omega

/-- Claim C4 (amended): no error is swallowed — every failure propagates to
the caller; `open_from_env` and `open_from_path` wrap the backend message with
a context string identifying the operation, while `load_config` and
`load_commit_diff` propagate the backend error verbatim without adding an
operation-identifying context. -/
theorem error_context_propagation (w : World) (p : String) (r : Repository) (hash : String)
    (opts : CommitDiffLoaderOptions) :
    (∀ m, git2_open_from_env w = Except.error m →
      Repository.open_from_env w = Except.error ("Could not open repository from environment: " ++ m)) ∧
    (∀ m, git2_open w p = Except.error m →
      Repository.open_from_path w p = Except.error ("Could not open repository from path: " ++ m)) ∧
    (∀ m, r.repository.configResult = Except.error m → r.load_config = Except.error m) ∧
    (∀ e, r.repository.revparse_single hash = Except.error e →
      r.load_commit_diff hash opts = RunResult.error e) ∧
    (∀ oid e, r.repository.revparse_single hash = Except.ok oid →
      load_from_hash r.repository opts oid = Except.error e →
      r.load_commit_diff hash opts = RunResult.error e) := by
  refine ⟨?_, ?_, ?_, ?_, ?_⟩
  · intro m hm
    unfold Repository.open_from_env
    rw [hm]
  · intro m hm
    unfold Repository.open_from_path
    rw [hm]
  · intro m hm
    unfold Repository.load_config
    rw [hm]
  · intro e he
    unfold Repository.load_commit_diff Repository.load_commit_diff_with
    rw [he]
  · intro oid e ho he
    unfold Repository.load_commit_diff Repository.load_commit_diff_with
    rw [ho]
    show (match load_from_hash r.repository opts oid with
          | Except.error e => RunResult.error e
          | Except.ok diffs => vecRemoveFirst diffs) = RunResult.error e
    rw [he]

/-- Witness for the amended C4: a failing `open_from_path` carries the
operation context. -/
theorem error_context_propagation_witness :
    Repository.open_from_path wTest "/missing2"
      = Except.error ("Could not open repository from path: "
          ++ ("failed to resolve path \x27" ++ "/missing2" ++ "\x27: No such file or directory")) :=
  (error_context_propagation wTest "/missing2" cfgFailRepo "h" CommitDiffLoaderOptions.new).2.1 _ rfl

/-- Claim C5: on a revision string that does not resolve, `load_commit_diff`
returns a NotFound-class error, never panics, and never returns a diff. -/
theorem load_commit_diff_unresolved_rev (r : Repository) (hash : String)
    (opts : CommitDiffLoaderOptions) (h : lookupAssoc r.repository.revs hash = none) :
    r.load_commit_diff hash opts
        = RunResult.error (DiffError.notFound ("revspec \x27" ++ hash ++ "\x27 not found")) ∧
    r.load_commit_diff hash opts ≠ RunResult.panicked ∧
    ∀ d, r.load_commit_diff hash opts ≠ RunResult.ok d := by
  have h1 : r.load_commit_diff hash opts
      = RunResult.error (DiffError.notFound ("revspec \x27" ++ hash ++ "\x27 not found")) := by
    unfold Repository.load_commit_diff Repository.load_commit_diff_with GitBackend.revparse_single
    rw [h]
  refine ⟨h1, ?_, ?_⟩
  · rw [h1]
    exact fun hcon => nomatch hcon
  · intro d
    rw [h1]
    exact fun hcon => nomatch hcon

/-- Witness for C5: the fixture repository has no revision "nope". -/
theorem load_commit_diff_unresolved_rev_witness :
    mergeRepo.load_commit_diff "nope" CommitDiffLoaderOptions.new
      = RunResult.error (DiffError.notFound ("revspec \x27" ++ "nope" ++ "\x27 not found")) :=
  (load_commit_diff_unresolved_rev mergeRepo "nope" CommitDiffLoaderOptions.new rfl).1

/-- Claim C6: opening a path holding a repository succeeds; opening a path
with no repository fails with an error whose message names the attempted path
(git2 message format as asserted by the own tests of the repository). -/
theorem open_from_path_ok_and_error (w : World) (p : String) :
    (∀ b, lookupAssoc w.reposAt p = some b →
      Repository.open_from_path w p = Except.ok { repository := b }) ∧
    (lookupAssoc w.reposAt p = none →
      Repository.open_from_path w p = Except.error
        ("Could not open repository from path: "
          ++ ("failed to resolve path \x27" ++ p ++ "\x27: No such file or directory")) ∧
      ∃ s1 s2, ("Could not open repository from path: "
          ++ ("failed to resolve path \x27" ++ p ++ "\x27: No such file or directory"))
        = s1 ++ p ++ s2) := by
  constructor
  · intro b hb
    unfold Repository.open_from_path git2_open
    rw [hb]
  · intro hn
    constructor
    · unfold Repository.open_from_path git2_open
      rw [hn]
    · refine ⟨"Could not open repository from path: " ++ "failed to resolve path \x27",
        "\x27: No such file or directory", ?_⟩
      simp only [String.append_assoc]

/-- Witness for C6 at a present and an absent path of the fixture world. -/
theorem open_from_path_ok_and_error_witness :
    Repository.open_from_path wTest "/repo" = Except.ok { repository := emptyBackend } ∧
    Repository.open_from_path wTest "/gone" = Except.error
      ("Could not open repository from path: "
        ++ ("failed to resolve path \x27" ++ "/gone" ++ "\x27: No such file or directory")) :=
  ⟨(open_from_path_ok_and_error wTest "/repo").1 emptyBackend rfl,
   ((open_from_path_ok_and_error wTest "/gone").2 rfl).1⟩

/-- Claim C7: failures are atomic — if any parent of the commit fails to
resolve, `load_from_hash` returns an error (no partial sequence), and when the
loader fails, `load_commit_diff` returns that error and no CommitDiff. -/
theorem load_diff_atomic_failure (b : GitBackend) (opts : CommitDiffLoaderOptions) (oid : Oid)
    (c : Commit) (p : Oid) (r : Repository) (hash : String) :
    (lookupCommit b oid = some c → p ∈ c.parents → lookupCommit b p = none →
      ∃ e, load_from_hash b opts oid = Except.error e) ∧
    (∀ oid2 e, r.repository.revparse_single hash = Except.ok oid2 →
      load_from_hash r.repository opts oid2 = Except.error e →
      r.load_commit_diff hash opts = RunResult.error e) := by
  constructor
  · intro hc hp hmiss
    unfold load_from_hash
    rw [hc]
    obtain ⟨ps0, tr⟩ := c
    cases ps0 with
    | nil => cases hp
    | cons q qs =>
      obtain ⟨e, he⟩ := loadParentDiffs_missing b opts oid tr (q :: qs) p hp hmiss
      exact ⟨e, he⟩
  · intro oid2 e ho he
    unfold Repository.load_commit_diff Repository.load_commit_diff_with
    rw [ho]
    show (match load_from_hash r.repository opts oid2 with
          | Except.error e => RunResult.error e
          | Except.ok diffs => vecRemoveFirst diffs) = RunResult.error e
    rw [he]

/-- Witness for C7 at a commit whose recorded parent is missing from the
object store. -/
theorem load_diff_atomic_failure_witness :
    ∃ e, load_from_hash badParentBackend CommitDiffLoaderOptions.new 5 = Except.error e :=
  (load_diff_atomic_failure badParentBackend CommitDiffLoaderOptions.new 5
    { parents := [9], tree := [] } 9 mergeRepo "x").1 rfl (by decide) rfl

/-- Claim C8: diff computation is deterministic — the result of
`load_commit_diff` depends only on the observable backend state (revision
resolution and commit lookup) and the options, so identical state yields
identical change-record sequences. -/
theorem load_commit_diff_deterministic (r1 r2 : Repository) (hash : String)
    (opts : CommitDiffLoaderOptions)
    (hrev : ∀ s, lookupAssoc r1.repository.revs s = lookupAssoc r2.repository.revs s)
    (hcom : ∀ o, lookupCommit r1.repository o = lookupCommit r2.repository o) :
    r1.load_commit_diff hash opts = r2.load_commit_diff hash opts := by
  have hrev1 : r1.repository.revparse_single hash = r2.repository.revparse_single hash := by
    unfold GitBackend.revparse_single
    rw [hrev hash]
  unfold Repository.load_commit_diff Repository.load_commit_diff_with
  rw [hrev1]
  cases hres : r2.repository.revparse_single hash with
  | error e => rfl
  | ok oid =>
    show (match load_from_hash r1.repository opts oid with
          | Except.error e => RunResult.error e
          | Except.ok diffs => vecRemoveFirst diffs)
        = (match load_from_hash r2.repository opts oid with
          | Except.error e => RunResult.error e
          | Except.ok diffs => vecRemoveFirst diffs)
    rw [load_from_hash_congr r1.repository r2.repository opts oid hcom]

/-- Witness for C8: two backends that agree on every revision and commit
lookup (differing in their config outcome) yield equal diffs. -/
theorem load_commit_diff_deterministic_witness :
    Repository.load_commit_diff { repository := mergeBackend } "c3" CommitDiffLoaderOptions.new
      = Repository.load_commit_diff { repository := altBackend } "c3" CommitDiffLoaderOptions.new :=
  load_commit_diff_deterministic { repository := mergeBackend } { repository := altBackend }
    "c3" CommitDiffLoaderOptions.new (fun _ => rfl) (fun _ => rfl)

/-- Claim C9: every `Repository` operation is read-only — in the
state-passing embedding of the `&self` methods, `load_config` and
`load_commit_diff` return the repository state unchanged, and their results
agree with the pure versions. -/
theorem repository_ops_read_only (r : Repository) (hash : String)
    (opts : CommitDiffLoaderOptions) :
    r.load_configS = (r.load_config, r) ∧
    r.load_commit_diffS hash opts = (r.load_commit_diff hash opts, r) := by
  obtain ⟨b⟩ := r
  constructor
  · cases hc : b.configResult <;>
      simp [Repository.load_configS, Repository.load_config, GitBackend.configS, hc]
  · cases h1 : b.revparse_single hash with
    | error e =>
      simp [Repository.load_commit_diffS, Repository.load_commit_diff,
        Repository.load_commit_diff_with, GitBackend.revparse_singleS, h1]
    | ok oid =>
      cases h2 : load_from_hash b opts oid with
      | error e =>
        simp [Repository.load_commit_diffS, Repository.load_commit_diff,
          Repository.load_commit_diff_with, GitBackend.revparse_singleS, load_from_hashS, h1, h2]
      | ok diffs =>
        simp [Repository.load_commit_diffS, Repository.load_commit_diff,
          Repository.load_commit_diff_with, GitBackend.revparse_singleS, load_from_hashS, h1, h2]

/-- Claim C10: `load_commit_diff` removes index 0 of the loader result
without an emptiness check, so it is panic-free exactly under the
precondition that the loader returns a non-empty sequence on success: the
panic branch is unreachable under the precondition, reachable without it,
and the modelled `load_from_hash` satisfies the precondition. -/
theorem remove_first_panic_freedom (r : Repository) (hash : String)
    (loader : Oid → Except DiffError (List CommitDiff)) (oid : Oid) :
    ((∀ o l, loader o = Except.ok l → l ≠ []) →
      r.load_commit_diff_with loader hash ≠ RunResult.panicked) ∧
    (r.repository.revparse_single hash = Except.ok oid → loader oid = Except.ok [] →
      r.load_commit_diff_with loader hash = RunResult.panicked) ∧
    (∀ (b : GitBackend) (opts : CommitDiffLoaderOptions) (o : Oid) (l : List CommitDiff),
      load_from_hash b opts o = Except.ok l → l ≠ []) := by
  refine ⟨?_, ?_, fun b opts o l h => load_from_hash_ok_ne_nil b opts o l h⟩
  · intro hpre
    unfold Repository.load_commit_diff_with
    cases h1 : r.repository.revparse_single hash with
    | error e => exact fun hcon => nomatch hcon
    | ok oid2 =>
      show (match loader oid2 with
            | Except.error e => RunResult.error e
            | Except.ok diffs => vecRemoveFirst diffs) ≠ RunResult.panicked
      cases h2 : loader oid2 with
      | error e => exact fun hcon => nomatch hcon
      | ok l =>
        cases l with
        | nil => exact absurd rfl (hpre oid2 [] h2)
        | cons d rest => exact fun hcon => nomatch hcon
  · intro ho he
    unfold Repository.load_commit_diff_with
    rw [ho]
    show (match loader oid with
          | Except.error e => RunResult.error e
          | Except.ok diffs => vecRemoveFirst diffs) = RunResult.panicked
    rw [he]
    rfl

/-- Witness for C10: a loader returning an empty vector panics on the fixture
backend, while the modelled loader never does. -/
theorem remove_first_panic_freedom_witness :
    Repository.load_commit_diff_with { repository := mergeBackend } emptyLoader "c3"
      = RunResult.panicked ∧
    Repository.load_commit_diff_with { repository := mergeBackend }
      (load_from_hash mergeBackend CommitDiffLoaderOptions.new) "c3" ≠ RunResult.panicked := by
  constructor
  · exact (remove_first_panic_freedom { repository := mergeBackend } "c3" emptyLoader 3).2.1 rfl rfl
  · exact (remove_first_panic_freedom { repository := mergeBackend } "c3"
      (load_from_hash mergeBackend CommitDiffLoaderOptions.new) 3).1
      (fun o l h => (remove_first_panic_freedom { repository := mergeBackend } "c3"
        emptyLoader 3).2.2 mergeBackend CommitDiffLoaderOptions.new o l h)
